import Mathlib

/-!
# Save and fetch bindings of the MangoPay client: Hook and Transfer

A shallow embedding of `hook.go` and `transfer.go`.

* A Go `map[string]interface{}` (`JsonObject`) is an association list with
  `get` (index expression), `set` (index assignment) and `delete`.  Every map
  built here has pairwise distinct keys; the order of the list carries no
  meaning.
* Go strings are Lean strings (valid UTF-8), for which marshalling followed by
  unmarshalling gives the string back.
* A pointer to the client is an `Option MangoPay`, where `none` is the nil pointer.
* A run time panic is the `none` result of a function returning `Option`.
* The request dispatcher `anyRequest` is a collaborator: it is a parameter of
  every function that calls it, and every such function reports the calls it
  made in the `calls` field of its outcome.
-/

namespace Mango

/-! ## Collaborator types -/

/-- Modelled from the spec: the client type MangoPay is declared outside the
sources at hand.  Domain objects hold a pointer to it, and only the identity of
that pointer is observed, so a client is its address. -/
structure MangoPay where
  addr : Nat
deriving DecidableEq, Repr

/-- Modelled from the spec: the action enumeration is declared outside the
sources at hand.  These are the constants that hook.go and transfer.go name; the
spec calls the type an enumeration of logical operations, so the constants are
pairwise distinct. -/
inductive mangoAction where
  | actionCreateWallet
  | actionCreateHook
  | actionUpdateHook
  | actionFetchHook
  | actionFetchAllHooks
  | actionCreateTransfer
  | actionFetchTransfer
  | actionFetchUserTransfers
deriving DecidableEq, Repr

/-- Modelled from the spec: rate-limit metadata (remaining quota and reset
time), declared outside the sources at hand.  The code only passes it through. -/
structure RateLimitInfo where
  remaining : Int
  reset : Int
deriving DecidableEq, Repr

/-- The custom error of a rejected transfer (transfer.go, lines 14-17). -/
structure ErrTransferFailed where
  transferId : String
  msg : String
deriving DecidableEq, Repr

/-- The text of fmt.Sprintf("transfer %s failed: %s ", e.transferId, e.msg). -/
def ErrTransferFailed.Error (e : ErrTransferFailed) : String :=
  "transfer " ++ e.transferId ++ " failed: " ++ e.msg ++ " "

/-- A non-nil value of the Go interface `error`: a value made by errors.New, an
ErrTransferFailed, or an error value of a collaborator (dispatcher, transport,
encoder), identified by a tag and carrying its text. -/
inductive GoError where
  | errorString (s : String)
  | transferFailed (e : ErrTransferFailed)
  | foreign (tag : Nat) (text : String)
deriving DecidableEq, Repr

/-- The method Error of the interface. -/
def GoError.Error : GoError → String
  | .errorString s => s
  | .transferFailed e => e.Error
  | .foreign _ text => text

/-- The predicate strings.Contains(s, sub): sub occurs in s as a contiguous
run of characters. -/
def Contains (s sub : String) : Prop :=
  ∃ pre post : String, s = pre ++ sub ++ post

/-! ## Dynamic JSON values and field maps -/

/-- A value of type `interface{}` stored in a field map.  json.Unmarshal stores
nil, bool, float64, string, slices and nested maps; `int` is the Go int that
Transfer.Save stores itself.  The numeric fields of Hook and Transfer are
integers, so a float64 is represented by the integer it denotes. -/
inductive JsonValue where
  | null
  | bool (b : Bool)
  | float64 (x : Int)
  | str (s : String)
  | int (n : Int)
  | array (items : List JsonValue)
  | object (fields : List (String × JsonValue))

/-- The Go type `JsonObject`, a `map[string]interface{}`. -/
abbrev JsonObject := List (String × JsonValue)

/-- The index expression `data[k]`; `none` is the nil interface of a missing key. -/
def JsonObject.get (data : JsonObject) (k : String) : Option JsonValue :=
  List.lookup k data

/-- The builtin `delete(data, k)`. -/
def JsonObject.delete (data : JsonObject) (k : String) : JsonObject :=
  data.filter (fun kv => kv.1 != k)

/-- The assignment `data[k] = v`. -/
def JsonObject.set (data : JsonObject) (k : String) (v : JsonValue) : JsonObject :=
  (k, v) :: data.delete k

/-- The integer value of the float64 that json.Unmarshal stores for the integer
literal n: n itself below 2^53 in magnitude, otherwise n rounded to a 53 bit
significand, ties to even. -/
def float64OfInt (n : Int) : Int :=
  let a := n.natAbs
  if a < 2 ^ 53 then n
  else
    let sh := Nat.log2 a + 1 - 53
    let q := a / 2 ^ sh
    let r := a % 2 ^ sh
    let half := 2 ^ (sh - 1)
    let q1 := if half < r ∨ (r = half ∧ q % 2 = 1) then q + 1 else q
    (if n < 0 then -1 else 1) * ((q1 * 2 ^ sh : Nat) : Int)

/-- The conversion `int(x)` of an integral float64 to the 64 bit Go int.  Out of
range the result depends on the platform; this is the amd64 result. -/
def intOfFloat64 (x : Int) : Int :=
  if -(2 ^ 63) ≤ x ∧ x < 2 ^ 63 then x else -(2 ^ 63)

/-- One dispatcher invocation: the receiver of anyRequest, the action and the
field map. -/
structure Call where
  service : Option MangoPay
  action : mangoAction
  data : JsonObject

/-! ## Domain objects -/

/-- Modelled from the spec: the embedded struct ProcessIdent is declared outside
the sources at hand.  `Id` is read by Hook.Save and `CreationDate` (an int64) is
the server-assigned creation time the spec lists in the response shape; `Tag`
is the free-form label of the upstream declaration. -/
structure ProcessIdent where
  Id : String
  Tag : String
  CreationDate : Int
deriving DecidableEq, Repr

/-- Modelled from the spec: the embedded struct ProcessReply is declared outside
the sources at hand.  Its fields are the ones Transfer.Save reads or deletes:
Status, ResultCode, ResultMessage, ExecutionDate, over those of ProcessIdent. -/
structure ProcessReply extends ProcessIdent where
  Status : String
  ResultCode : String
  ResultMessage : String
  ExecutionDate : Int
deriving DecidableEq, Repr

/-- Modelled from the spec: the amount value type, an integer amount in minor
units and a currency code, declared outside the sources at hand. -/
structure Money where
  Currency : String
  Amount : Int
deriving DecidableEq, Repr

/-- The struct Hook (hook.go, lines 16-24); EventType is a string type. -/
structure Hook extends ProcessIdent where
  Url : String
  EventType : String
  Status : String
  Validity : String
  service : Option MangoPay
deriving DecidableEq, Repr

/-- The struct Transfer (transfer.go, lines 30-40). -/
structure Transfer extends ProcessReply where
  AuthorId : String
  CreditedUserId : String
  DebitedFunds : Money
  Fees : Money
  DebitedWalletId : String
  CreditedWalletId : String
  CreditedFunds : Money
  service : Option MangoPay
deriving DecidableEq, Repr

/-- Modelled from the spec: the struct Wallet is declared outside the sources at
hand; NewTransfer reads only its identifier. -/
structure Wallet where
  Id : String
deriving DecidableEq, Repr

/-! ## Serialisation -/

/-- The generic value of a Money after json.Marshal and json.Unmarshal. -/
def Money.toJson (m : Money) : JsonValue :=
  .object [("Currency", .str m.Currency), ("Amount", .float64 (float64OfInt m.Amount))]

/-- The statements `json.Marshal(h)` and `json.Unmarshal(j, &data)` of Hook.Save
(lines 38-45): the exported fields, those of the embedded ProcessIdent promoted,
under their Go names; the unexported `service` is left out.  Neither call can
fail on a Hook. -/
def Hook.toJsonObject (h : Hook) : Except GoError JsonObject :=
  .ok [("Id", .str h.Id), ("Tag", .str h.Tag),
       ("CreationDate", .float64 (float64OfInt h.CreationDate)),
       ("Url", .str h.Url), ("EventType", .str h.EventType),
       ("Status", .str h.Status), ("Validity", .str h.Validity)]

/-- The statements `json.Marshal(t)` and `json.Unmarshal(j, &data)` of
Transfer.Save (lines 123-130). -/
def Transfer.toJsonObject (t : Transfer) : Except GoError JsonObject :=
  .ok [("Id", .str t.Id), ("Tag", .str t.Tag),
       ("CreationDate", .float64 (float64OfInt t.CreationDate)),
       ("Status", .str t.Status), ("ResultCode", .str t.ResultCode),
       ("ResultMessage", .str t.ResultMessage),
       ("ExecutionDate", .float64 (float64OfInt t.ExecutionDate)),
       ("AuthorId", .str t.AuthorId), ("CreditedUserId", .str t.CreditedUserId),
       ("DebitedFunds", t.DebitedFunds.toJson), ("Fees", t.Fees.toJson),
       ("DebitedWalletId", .str t.DebitedWalletId),
       ("CreditedWalletId", .str t.CreditedWalletId),
       ("CreditedFunds", t.CreditedFunds.toJson)]

/-! ## Hook -/

/-- The body of the loop `for k, v := range data` of Hook.Save (lines 57-68):
the type switch on v. -/
def rangeStep (data : JsonObject) (kv : String × JsonValue) : JsonObject :=
  match kv.2 with
  | .str s => if s = "" then data.delete kv.1 else data
  | .int n => if n = 0 then data.delete kv.1 else data
  | _ => data

/-- The loop `for k, v := range data` of Hook.Save (lines 57-68).  The loop only
ever deletes the entry it is visiting, so it visits every entry of the map it
started with. -/
def pruneEmpty (data : JsonObject) : JsonObject :=
  data.foldl rangeStep data

/-- The pruning of the field map in Hook.Save (lines 47-69). -/
def Hook.sanitize (action : mangoAction) (data : JsonObject) : JsonObject :=
  let data := if action = .actionCreateWallet then data.delete "Id" else data
  let data := data.delete "Status"
  let data := data.delete "Validity"
  if action = .actionUpdateHook then pruneEmpty data else data

/-- The choice of action in Hook.Save (lines 31-36). -/
def Hook.saveAction (h : Hook) : mangoAction :=
  if h.Id = "" then .actionCreateHook else .actionUpdateHook

/-- What a call of Hook.Save leaves behind: the dispatcher calls it made, the
receiver after the call and the returned error (`none` is nil). -/
structure HookSave where
  calls : List Call
  recv : Hook
  err : Option GoError

/-- The method Hook.Save (hook.go, lines 30-79). -/
def Hook.Save (anyRequest : Call → Except GoError Hook) (h : Hook) : HookSave :=
  let action := h.saveAction
  match h.toJsonObject with
  | .error err => ⟨[], h, some err⟩
  | .ok data =>
    let data := Hook.sanitize action data
    let call : Call := ⟨h.service, action, data⟩
    match anyRequest call with
    | .error err => ⟨[call], h, some err⟩
    | .ok hook =>
      let serv := h.service
      ⟨[call], { hook with service := serv }, none⟩

/-- What MangoPay.Hook leaves behind: the dispatcher calls it made and the two
returned values. -/
structure HookFetch where
  calls : List Call
  hook : Option Hook
  err : Option GoError

/-- The method MangoPay.Hook (hook.go, lines 81-89). -/
def MangoPay.Hook (anyRequest : Call → Except GoError Mango.Hook) (m : MangoPay)
    (id : String) : HookFetch :=
  let call : Call := ⟨some m, .actionFetchHook, [("Id", .str id)]⟩
  match anyRequest call with
  | .error err => ⟨[call], none, some err⟩
  | .ok hook => ⟨[call], some { hook with service := some m }, none⟩

/-! ## Transfer -/

/-- The body of the loop of Transfer.Save, lines 133-135:
`data[field] = int(data[field].(float64))`.  The type assertion panics unless
the entry is present and holds a float64. -/
def coerceField (data : JsonObject) (field : String) : Option JsonObject :=
  match data.get field with
  | some (.float64 x) => some (data.set field (.int (intOfFloat64 x)))
  | _ => none

/-- The loop of Transfer.Save, lines 133-135, over CreationDate and
ExecutionDate. -/
def coerceDates (data : JsonObject) : Option JsonObject :=
  ["CreationDate", "ExecutionDate"].foldlM coerceField data

/-- The fields listed on line 138 of transfer.go. -/
def transferForbidden : List String :=
  ["Id", "CreationDate", "ExecutionDate", "CreditedFunds", "CreditedUserId",
   "ResultCode", "ResultMessage", "Status"]

/-- The loop of Transfer.Save, lines 138-140. -/
def deleteForbidden (data : JsonObject) : JsonObject :=
  transferForbidden.foldl JsonObject.delete data

/-- The preparation of the field map in Transfer.Save (lines 132-140): the
coercion loop, then the deletion loop.  The outcome `none` is a panic. -/
def Transfer.sanitize (data : JsonObject) : Option JsonObject :=
  (coerceDates data).map deleteForbidden

/-- What a call of Transfer.Save leaves behind: the dispatcher calls it made,
the receiver after the call and the two returned values (`none` is nil). -/
structure TransferSave where
  calls : List Call
  recv : Transfer
  info : Option RateLimitInfo
  err : Option GoError

/-- The method Transfer.Save (transfer.go, lines 122-154).  The outcome `none`
is a panic. -/
def Transfer.Save (anyRequest : Call → Except GoError (Transfer × Option RateLimitInfo))
    (t : Transfer) : Option TransferSave :=
  match t.toJsonObject with
  | .error err => some ⟨[], t, none, some err⟩
  | .ok data =>
    match Transfer.sanitize data with
    | none => none
    | some data =>
      let call : Call := ⟨t.service, .actionCreateTransfer, data⟩
      match anyRequest call with
      | .error err => some ⟨[call], t, none, some err⟩
      | .ok (tr, rateLimitInfo) =>
        let serv := t.service
        let t1 : Transfer := { tr with service := serv }
        if t1.Status = "FAILED" then
          some ⟨[call], t1, none, some (.transferFailed ⟨t1.Id, t1.ResultMessage⟩)⟩
        else
          some ⟨[call], t1, rateLimitInfo, none⟩

/-- What MangoPay.Transfer leaves behind: the dispatcher calls it made and the
three returned values. -/
structure TransferFetch where
  calls : List Call
  transfer : Option Transfer
  info : Option RateLimitInfo
  err : Option GoError

/-- The method MangoPay.Transfer (transfer.go, lines 157-163). -/
def MangoPay.Transfer (anyRequest : Call → Except GoError (Mango.Transfer × Option RateLimitInfo))
    (m : MangoPay) (id : String) : TransferFetch :=
  let call : Call := ⟨some m, .actionFetchTransfer, [("Id", .str id)]⟩
  match anyRequest call with
  | .error err => ⟨[call], none, none, some err⟩
  | .ok (w, rateLimitInfo) => ⟨[call], some w, rateLimitInfo, none⟩

/-- What MangoPay.NewTransfer leaves behind: the dispatcher calls it made and
the two returned values. -/
structure NewTransferResult where
  calls : List Call
  transfer : Option Transfer
  err : Option GoError

/-- The method MangoPay.NewTransfer (transfer.go, lines 71-102).  The interface
Consumer and the helper consumerId are declared outside the sources at hand:
Consumer is any type, consumerId a parameter, and a nil author, a nil source
wallet and a nil destination wallet are `none`. -/
def MangoPay.NewTransfer {Consumer : Type} (consumerId : Consumer → String) (m : MangoPay)
    (author : Option Consumer) (amount fees : Money) (from_ to_ : Option Wallet) :
    NewTransferResult :=
  let msg := "new tranfer: "
  match author with
  | none => ⟨[], none, some (.errorString (msg ++ "nil author"))⟩
  | some author =>
    match from_ with
    | none => ⟨[], none, some (.errorString (msg ++ "nil source wallet"))⟩
    | some from_ =>
      match to_ with
      | none => ⟨[], none, some (.errorString (msg ++ "nil dest wallet"))⟩
      | some to_ =>
        if from_.Id = "" then
          ⟨[], none, some (.errorString (msg ++ "source wallet has empty Id"))⟩
        else if to_.Id = "" then
          ⟨[], none, some (.errorString (msg ++ "dest wallet has empty Id"))⟩
        else
          let id := consumerId author
          if id = "" then
            ⟨[], none, some (.errorString (msg ++ "author has empty Id"))⟩
          else
            let t : Mango.Transfer :=
              { Id := "", Tag := "", CreationDate := 0,
                Status := "", ResultCode := "", ResultMessage := "", ExecutionDate := 0,
                AuthorId := id,
                CreditedUserId := "",
                DebitedFunds := amount,
                Fees := fees,
                DebitedWalletId := from_.Id,
                CreditedWalletId := to_.Id,
                CreditedFunds := ⟨"", 0⟩,
                service := none }
            let t := { t with service := some m }
            ⟨[], some t, none⟩

/-! ## Concrete objects used to evaluate the code -/

/-- A client. -/
def sampleClient : MangoPay := ⟨1⟩

/-- A hook that has not been created yet. -/
def newHook : Hook :=
  { Id := "", Tag := "", CreationDate := 0, Url := "https://example.test/hook",
    EventType := "PAYIN_NORMAL_SUCCEEDED", Status := "", Validity := "",
    service := some sampleClient }

/-- A hook that carries an identifier and a zero creation date. -/
def storedHook : Hook :=
  { Id := "123", Tag := "", CreationDate := 0, Url := "https://example.test/hook",
    EventType := "PAYIN_NORMAL_SUCCEEDED", Status := "", Validity := "",
    service := some sampleClient }

/-- The hook a server sends back, as deserialised: the handle is nil. -/
def repliedHook : Hook :=
  { Id := "123", Tag := "", CreationDate := 1700000000, Url := "https://example.test/hook",
    EventType := "PAYIN_NORMAL_SUCCEEDED", Status := "ENABLED", Validity := "VALID",
    service := none }

/-- A transfer as NewTransfer builds it. -/
def newTransfer : Transfer :=
  { Id := "", Tag := "", CreationDate := 0, Status := "", ResultCode := "",
    ResultMessage := "", ExecutionDate := 0, AuthorId := "u1", CreditedUserId := "",
    DebitedFunds := ⟨"EUR", 100⟩, Fees := ⟨"EUR", 0⟩, DebitedWalletId := "w1",
    CreditedWalletId := "w2", CreditedFunds := ⟨"", 0⟩, service := some sampleClient }

/-- The rejected transfer a server sends back, as deserialised: the handle is nil. -/
def failedTransfer : Transfer :=
  { Id := "T9", Tag := "", CreationDate := 1700000000, Status := "FAILED",
    ResultCode := "001001", ResultMessage := "insufficient funds",
    ExecutionDate := 0, AuthorId := "u1", CreditedUserId := "u2",
    DebitedFunds := ⟨"EUR", 100⟩, Fees := ⟨"EUR", 0⟩, DebitedWalletId := "w1",
    CreditedWalletId := "w2", CreditedFunds := ⟨"EUR", 100⟩, service := none }

/-- The accepted transfer a server sends back, as deserialised: the handle is nil. -/
def doneTransfer : Transfer :=
  { failedTransfer with Status := "SUCCEEDED", ResultCode := "000000",
                        ResultMessage := "Success", ExecutionDate := 1700000001 }

/-- A dispatcher that answers every call with the same hook. -/
def replyHook (r : Hook) : Call → Except GoError Hook :=
  fun _ => .ok r

/-- A dispatcher that answers every call with the same transfer and no rate-limit
metadata. -/
def replyTransfer (r : Transfer) : Call → Except GoError (Transfer × Option RateLimitInfo) :=
  fun _ => .ok (r, none)

/-- A dispatcher for hooks that fails every call with the same error. -/
def failHook (e : GoError) : Call → Except GoError Hook :=
  fun _ => .error e

/-- A dispatcher for transfers that fails every call with the same error. -/
def failTransfer (e : GoError) : Call → Except GoError (Transfer × Option RateLimitInfo) :=
  fun _ => .error e

/-- A transport failure. -/
def netDown : GoError := .foreign 7 "connection refused"

/-- The values that the loop of Hook.Save deletes: the empty string held as a
Go string and the zero held as a Go int. -/
def isEmptyValue : JsonValue → Bool
  | .str s => s == ""
  | .int n => n == 0
  | _ => false

/-- The keys of a field map, in list order. -/
def JsonObject.keys (data : JsonObject) : List String :=
  data.map Prod.fst

/-! ## Field maps: lookup after deletion -/

theorem get_nil (k : String) : JsonObject.get [] k = none := rfl

theorem get_cons (k k1 : String) (v : JsonValue) (data : JsonObject) :
    JsonObject.get ((k1, v) :: data) k = if k = k1 then some v else JsonObject.get data k := by
  unfold JsonObject.get
  by_cases hk : k = k1
  · subst hk; simp [List.lookup]
  · have hb : (k == k1) = false := by simpa using hk
    simp [List.lookup, hb, hk]

theorem delete_nil (k : String) : JsonObject.delete [] k = [] := rfl

theorem delete_cons (k k1 : String) (v : JsonValue) (data : JsonObject) :
    JsonObject.delete ((k1, v) :: data) k =
      if k1 = k then JsonObject.delete data k else (k1, v) :: JsonObject.delete data k := by
  unfold JsonObject.delete
  by_cases hk : k1 = k
  · simp [List.filter_cons, hk]
  · simp [List.filter_cons, hk]

theorem get_delete (data : JsonObject) (k k1 : String) :
    (data.delete k).get k1 = if k1 = k then none else data.get k1 := by
  induction data with
  | nil => simp [delete_nil, get_nil]
  | cons kv rest ih =>
    obtain ⟨k2, v⟩ := kv
    rw [delete_cons]
    by_cases h2 : k2 = k
    · subst h2
      simp only [if_true, ih, get_cons]
      by_cases h1 : k1 = k2 <;> simp [h1]
    · simp only [h2, if_false, get_cons, ih]
      by_cases h1 : k1 = k
      · subst h1
        have : ¬ k1 = k2 := fun h => h2 h.symm
        simp [this]
      · simp [h1]

theorem delete_eq_self (data : JsonObject) (k : String) (hk : k ∉ data.keys) :
    data.delete k = data := by
  unfold JsonObject.delete
  rw [List.filter_eq_self]
  intro kv hkv
  have : kv.1 ≠ k := by
    intro h
    apply hk
    rw [← h]
    exact List.mem_map_of_mem Prod.fst hkv
  simpa using this

theorem keys_delete_subset (data : JsonObject) (k k1 : String)
    (h : k1 ∈ (data.delete k).keys) : k1 ∈ data.keys := by
  unfold JsonObject.keys JsonObject.delete at *
  obtain ⟨kv, hkv, rfl⟩ := List.mem_map.1 h
  exact List.mem_map_of_mem Prod.fst (List.mem_filter.1 hkv).1

theorem not_mem_keys_delete (data : JsonObject) (k : String) : k ∉ (data.delete k).keys := by
  unfold JsonObject.keys JsonObject.delete
  intro h
  obtain ⟨kv, hkv, hk⟩ := List.mem_map.1 h
  have := (List.mem_filter.1 hkv).2
  simp [hk] at this

theorem get_eq_none_of_not_mem (data : JsonObject) (k : String) (hk : k ∉ data.keys) :
    data.get k = none := by
  induction data with
  | nil => rfl
  | cons kv rest ih =>
    obtain ⟨k1, v⟩ := kv
    have h1 : ¬ k = k1 := by
      intro h; apply hk; simp [JsonObject.keys, h]
    have h2 : k ∉ JsonObject.keys rest := by
      intro h; apply hk; simp only [JsonObject.keys, List.map_cons, List.mem_cons]
      exact Or.inr h
    rw [get_cons, if_neg h1, ih h2]

theorem mem_of_get_eq_some (data : JsonObject) (k : String) (v : JsonValue)
    (h : data.get k = some v) : (k, v) ∈ data := by
  induction data with
  | nil => simp [get_nil] at h
  | cons kv rest ih =>
    obtain ⟨k1, v1⟩ := kv
    rw [get_cons] at h
    by_cases hk : k = k1
    · rw [if_pos hk] at h
      cases h
      subst hk
      exact List.mem_cons_self _ _
    · rw [if_neg hk] at h
      exact List.mem_cons_of_mem _ (ih h)

/-! ## The range loop of Hook.Save -/

theorem rangeStep_eq (data : JsonObject) (kv : String × JsonValue) :
    rangeStep data kv = if isEmptyValue kv.2 = true then data.delete kv.1 else data := by
  obtain ⟨k, v⟩ := kv
  cases v <;> simp [rangeStep, isEmptyValue]

theorem foldl_rangeStep (l acc : JsonObject) :
    l.foldl rangeStep acc =
      acc.filter (fun q => !(l.any (fun p => isEmptyValue p.2 && p.1 == q.1))) := by
  induction l generalizing acc with
  | nil => simp
  | cons p l ih =>
    rw [List.foldl_cons, ih, rangeStep_eq]
    by_cases he : isEmptyValue p.2 = true
    · rw [if_pos he]
      unfold JsonObject.delete
      rw [List.filter_filter]
      apply List.filter_congr
      intro q _
      by_cases hq : p.1 = q.1
      · simp [he, hq]
      · have h1 : (q.1 != p.1) = true := by
          simpa using fun h : q.1 = p.1 => hq h.symm
        have h2 : (p.1 == q.1) = false := by simpa using hq
        simp [he, h1, h2]
    · rw [if_neg he]
      apply List.filter_congr
      intro q _
      simp [he]

/-- Whatever the loop leaves in the map is neither an empty string nor an int
zero. -/
theorem pruneEmpty_get_nonempty (data : JsonObject) (k : String) (v : JsonValue)
    (h : (pruneEmpty data).get k = some v) : isEmptyValue v = false := by
  have hm := mem_of_get_eq_some _ _ _ h
  unfold pruneEmpty at hm
  rw [foldl_rangeStep] at hm
  obtain ⟨hmem, hp⟩ := List.mem_filter.1 hm
  by_contra hne
  have hv : isEmptyValue v = true := by simpa using hne
  have : (data.any (fun p => isEmptyValue p.2 && p.1 == k)) = true := by
    rw [List.any_eq_true]
    exact ⟨(k, v), hmem, by simp [hv]⟩
  simp [this] at hp

/-- On a map with distinct keys the loop keeps exactly the entries whose value
is neither an empty string nor an int zero. -/
theorem pruneEmpty_eq_filter (data : JsonObject) (hnd : data.keys.Nodup) :
    pruneEmpty data = data.filter (fun q => !isEmptyValue q.2) := by
  unfold pruneEmpty
  rw [foldl_rangeStep]
  apply List.filter_congr
  intro q hq
  congr 1
  by_cases he : isEmptyValue q.2 = true
  · rw [he, List.any_eq_true]
    exact ⟨q, hq, by simp [he]⟩
  · have he2 : isEmptyValue q.2 = false := by simpa using he
    rw [he2]
    rw [Bool.eq_false_iff]
    intro hany
    rw [List.any_eq_true] at hany
    obtain ⟨p, hp, hpq⟩ := hany
    simp only [Bool.and_eq_true, beq_iff_eq] at hpq
    have hpq1 : p = q := by
      have hinj := List.inj_on_of_nodup_map hnd hp hq hpq.2
      exact hinj
    rw [hpq1] at hpq
    rw [hpq.1] at he2
    exact Bool.noConfusion he2

theorem get_filter_value (data : JsonObject) (hnd : data.keys.Nodup) (P : JsonValue → Bool)
    (k : String) :
    JsonObject.get (data.filter (fun q => P q.2)) k = (data.get k).filter P := by
  induction data with
  | nil => rfl
  | cons kv rest ih =>
    obtain ⟨k1, v1⟩ := kv
    have hnd2 : JsonObject.keys rest |>.Nodup := by
      simp only [JsonObject.keys, List.map_cons, List.nodup_cons] at hnd
      exact hnd.2
    have hk1 : k1 ∉ JsonObject.keys rest := by
      simp only [JsonObject.keys, List.map_cons, List.nodup_cons] at hnd
      exact hnd.1
    have ih2 := ih hnd2
    rw [List.filter_cons, get_cons]
    by_cases hP : P v1 = true
    · rw [if_pos hP, get_cons, ih2]
      by_cases hk : k = k1
      · simp [hk, Option.filter, hP]
      · simp [hk]
    · rw [if_neg hP, ih2]
      by_cases hk : k = k1
      · subst hk
        rw [get_eq_none_of_not_mem _ _ hk1]
        simp [Option.filter, hP]
      · simp [hk]

/-- Lookup after the loop, on a map with distinct keys. -/
theorem get_pruneEmpty (data : JsonObject) (hnd : data.keys.Nodup) (k : String) :
    (pruneEmpty data).get k = (data.get k).filter (fun v => !isEmptyValue v) := by
  rw [pruneEmpty_eq_filter data hnd]
  exact get_filter_value data hnd (fun v => !isEmptyValue v) k

/-! ## Hook.Save: the call it makes -/

/-- The serialised hook without Status and Validity. -/
theorem hook_delete_status_validity (h : Hook) :
    JsonObject.delete (JsonObject.delete
        [("Id", .str h.Id), ("Tag", .str h.Tag),
         ("CreationDate", .float64 (float64OfInt h.CreationDate)),
         ("Url", .str h.Url), ("EventType", .str h.EventType),
         ("Status", .str h.Status), ("Validity", .str h.Validity)] "Status") "Validity" =
      [("Id", .str h.Id), ("Tag", .str h.Tag),
       ("CreationDate", .float64 (float64OfInt h.CreationDate)),
       ("Url", .str h.Url), ("EventType", .str h.EventType)] := by
  simp [delete_cons, delete_nil]

theorem hook_save_calls (disp : Call → Except GoError Hook) (h : Hook) :
    (Hook.Save disp h).calls =
      [⟨h.service, h.saveAction,
        if h.saveAction = .actionUpdateHook then
          pruneEmpty [("Id", .str h.Id), ("Tag", .str h.Tag),
            ("CreationDate", .float64 (float64OfInt h.CreationDate)),
            ("Url", .str h.Url), ("EventType", .str h.EventType)]
        else
          [("Id", .str h.Id), ("Tag", .str h.Tag),
            ("CreationDate", .float64 (float64OfInt h.CreationDate)),
            ("Url", .str h.Url), ("EventType", .str h.EventType)]⟩] := by
  have hs : Hook.sanitize h.saveAction
        [("Id", .str h.Id), ("Tag", .str h.Tag),
         ("CreationDate", .float64 (float64OfInt h.CreationDate)),
         ("Url", .str h.Url), ("EventType", .str h.EventType),
         ("Status", .str h.Status), ("Validity", .str h.Validity)] =
      if h.saveAction = .actionUpdateHook then
          pruneEmpty [("Id", .str h.Id), ("Tag", .str h.Tag),
            ("CreationDate", .float64 (float64OfInt h.CreationDate)),
            ("Url", .str h.Url), ("EventType", .str h.EventType)]
        else
          [("Id", .str h.Id), ("Tag", .str h.Tag),
            ("CreationDate", .float64 (float64OfInt h.CreationDate)),
            ("Url", .str h.Url), ("EventType", .str h.EventType)] := by
    have hw : h.saveAction ≠ .actionCreateWallet := by
      unfold Hook.saveAction
      split <;> simp
    unfold Hook.sanitize
    simp only [if_neg hw, hook_delete_status_validity]
  unfold Hook.Save
  simp only [Hook.toJsonObject, hs]
  split <;> rfl

/-! ## Hook.Save on create -/

/-- C3, evaluated on the code: for a hook whose Id is empty, Hook.Save makes one
dispatcher call, with the create-hook action, and the field map of that call has
no key Status and no key Validity but still has the key Id, holding the empty
string: the guard in front of the deletion of Id tests for the create-wallet
action, which Hook.Save never selects. -/
theorem hook_create_sends_empty_id (disp : Call → Except GoError Hook) (h : Hook)
    (hid : h.Id = "") :
    ∃ data : JsonObject,
      (Hook.Save disp h).calls = [⟨h.service, .actionCreateHook, data⟩] ∧
      data.get "Id" = some (.str "") ∧
      data.get "Status" = none ∧ data.get "Validity" = none := by
  have ha : h.saveAction = .actionCreateHook := by simp [Hook.saveAction, hid]
  have hc : (Hook.Save disp h).calls = [⟨h.service, .actionCreateHook,
        [("Id", .str h.Id), ("Tag", .str h.Tag),
          ("CreationDate", .float64 (float64OfInt h.CreationDate)),
          ("Url", .str h.Url), ("EventType", .str h.EventType)]⟩] := by
    rw [hook_save_calls, ha]
    simp only [reduceCtorEq, if_false]
  refine ⟨_, hc, ?_, ?_, ?_⟩
  · simp [get_cons, hid]
  · simp [get_cons, get_nil]
  · simp [get_cons, get_nil]

theorem hook_create_sends_empty_id_witness :
    newHook.Id = "" ∧
    ∃ data : JsonObject,
      (Hook.Save (replyHook repliedHook) newHook).calls =
        [⟨newHook.service, .actionCreateHook, data⟩] ∧
      data.get "Id" = some (.str "") ∧
      data.get "Status" = none ∧ data.get "Validity" = none :=
  ⟨rfl, hook_create_sends_empty_id (replyHook repliedHook) newHook rfl⟩

/-- C8: for a hook whose Id is empty, Hook.Save makes one dispatcher call, with
the create-hook action, and under every key other than Id, Status and Validity
the field map of that call holds exactly what the serialised hook holds there,
empty strings and zeros included. -/
theorem hook_create_keeps_other_fields (disp : Call → Except GoError Hook) (h : Hook)
    (hid : h.Id = "") :
    ∃ m data : JsonObject,
      h.toJsonObject = .ok m ∧
      (Hook.Save disp h).calls = [⟨h.service, .actionCreateHook, data⟩] ∧
      ∀ k : String, k ≠ "Id" → k ≠ "Status" → k ≠ "Validity" → data.get k = m.get k := by
  have ha : h.saveAction = .actionCreateHook := by simp [Hook.saveAction, hid]
  have hc : (Hook.Save disp h).calls = [⟨h.service, .actionCreateHook,
        [("Id", .str h.Id), ("Tag", .str h.Tag),
          ("CreationDate", .float64 (float64OfInt h.CreationDate)),
          ("Url", .str h.Url), ("EventType", .str h.EventType)]⟩] := by
    rw [hook_save_calls, ha]
    simp only [reduceCtorEq, if_false]
  refine ⟨_, _, rfl, hc, ?_⟩
  intro k h1 h2 h3
  simp [get_cons, get_nil, h1, h2, h3]

theorem hook_create_keeps_other_fields_witness :
    newHook.Id = "" ∧
    ∃ m data : JsonObject,
      newHook.toJsonObject = .ok m ∧
      (Hook.Save (replyHook repliedHook) newHook).calls =
        [⟨newHook.service, .actionCreateHook, data⟩] ∧
      ∀ k : String, k ≠ "Id" → k ≠ "Status" → k ≠ "Validity" → data.get k = m.get k :=
  ⟨rfl, hook_create_keeps_other_fields (replyHook repliedHook) newHook rfl⟩

/-! ## Hook.Save on update -/

/-- C4, evaluated on the code: for a hook whose Id is not empty, Hook.Save makes
one dispatcher call, with the update-hook action; no key of its field map holds
the empty string and none holds a Go int zero, but the key CreationDate is
always there and holds the float64 that unmarshalling produced, the number zero
when the creation date of the hook is zero: the type switch of the loop has a
case for int and none for float64. -/
theorem hook_update_keeps_zero_number (disp : Call → Except GoError Hook) (h : Hook)
    (hid : h.Id ≠ "") :
    ∃ data : JsonObject,
      (Hook.Save disp h).calls = [⟨h.service, .actionUpdateHook, data⟩] ∧
      (∀ k : String, data.get k ≠ some (.str "")) ∧
      (∀ k : String, data.get k ≠ some (.int 0)) ∧
      data.get "CreationDate" = some (.float64 (float64OfInt h.CreationDate)) := by
  have ha : h.saveAction = .actionUpdateHook := by simp [Hook.saveAction, hid]
  have hc : (Hook.Save disp h).calls = [⟨h.service, .actionUpdateHook,
        pruneEmpty [("Id", .str h.Id), ("Tag", .str h.Tag),
          ("CreationDate", .float64 (float64OfInt h.CreationDate)),
          ("Url", .str h.Url), ("EventType", .str h.EventType)]⟩] := by
    rw [hook_save_calls, ha]
    simp only [if_true]
  refine ⟨_, hc, ?_, ?_, ?_⟩
  · intro k hk
    have := pruneEmpty_get_nonempty _ _ _ hk
    simp [isEmptyValue] at this
  · intro k hk
    have := pruneEmpty_get_nonempty _ _ _ hk
    simp [isEmptyValue] at this
  · rw [get_pruneEmpty _ (by simp [JsonObject.keys])]
    simp [get_cons, Option.filter, isEmptyValue]

theorem hook_update_keeps_zero_number_witness :
    storedHook.Id ≠ "" ∧
    ∃ data : JsonObject,
      (Hook.Save (replyHook repliedHook) storedHook).calls =
        [⟨storedHook.service, .actionUpdateHook, data⟩] ∧
      (∀ k : String, data.get k ≠ some (.str "")) ∧
      (∀ k : String, data.get k ≠ some (.int 0)) ∧
      data.get "CreationDate" = some (.float64 0) :=
  ⟨by decide, hook_update_keeps_zero_number (replyHook repliedHook) storedHook (by decide)⟩

/-! ## Transfer.Save: the call it makes -/

/-- On a serialised transfer the preparation of Transfer.Save does not panic,
and leaves the six entries that are not listed on line 138. -/
theorem transfer_sanitize_serialised (t : Transfer) :
    Transfer.sanitize
      [("Id", .str t.Id), ("Tag", .str t.Tag),
       ("CreationDate", .float64 (float64OfInt t.CreationDate)),
       ("Status", .str t.Status), ("ResultCode", .str t.ResultCode),
       ("ResultMessage", .str t.ResultMessage),
       ("ExecutionDate", .float64 (float64OfInt t.ExecutionDate)),
       ("AuthorId", .str t.AuthorId), ("CreditedUserId", .str t.CreditedUserId),
       ("DebitedFunds", t.DebitedFunds.toJson), ("Fees", t.Fees.toJson),
       ("DebitedWalletId", .str t.DebitedWalletId),
       ("CreditedWalletId", .str t.CreditedWalletId),
       ("CreditedFunds", t.CreditedFunds.toJson)] =
    some
      [("Tag", .str t.Tag), ("AuthorId", .str t.AuthorId),
       ("DebitedFunds", t.DebitedFunds.toJson), ("Fees", t.Fees.toJson),
       ("DebitedWalletId", .str t.DebitedWalletId),
       ("CreditedWalletId", .str t.CreditedWalletId)] := by
  simp [Transfer.sanitize, coerceDates, coerceField, deleteForbidden, transferForbidden,
    JsonObject.set, get_cons, delete_cons, delete_nil]

/-- Transfer.Save never panics: it makes one dispatcher call and the rest is
decided by the answer. -/
theorem transfer_save_eq (disp : Call → Except GoError (Transfer × Option RateLimitInfo))
    (t : Transfer) :
    Transfer.Save disp t =
      some (match disp ⟨t.service, .actionCreateTransfer,
          [("Tag", .str t.Tag), ("AuthorId", .str t.AuthorId),
       ("DebitedFunds", t.DebitedFunds.toJson), ("Fees", t.Fees.toJson),
       ("DebitedWalletId", .str t.DebitedWalletId),
       ("CreditedWalletId", .str t.CreditedWalletId)]⟩ with
        | .error err =>
          ⟨[⟨t.service, .actionCreateTransfer,
            [("Tag", .str t.Tag), ("AuthorId", .str t.AuthorId),
       ("DebitedFunds", t.DebitedFunds.toJson), ("Fees", t.Fees.toJson),
       ("DebitedWalletId", .str t.DebitedWalletId),
       ("CreditedWalletId", .str t.CreditedWalletId)]⟩], t, none, some err⟩
        | .ok (tr, rateLimitInfo) =>
          if tr.Status = "FAILED" then
            ⟨[⟨t.service, .actionCreateTransfer,
              [("Tag", .str t.Tag), ("AuthorId", .str t.AuthorId),
       ("DebitedFunds", t.DebitedFunds.toJson), ("Fees", t.Fees.toJson),
       ("DebitedWalletId", .str t.DebitedWalletId),
       ("CreditedWalletId", .str t.CreditedWalletId)]⟩],
              { tr with service := t.service }, none,
              some (.transferFailed ⟨tr.Id, tr.ResultMessage⟩)⟩
          else
            ⟨[⟨t.service, .actionCreateTransfer,
              [("Tag", .str t.Tag), ("AuthorId", .str t.AuthorId),
       ("DebitedFunds", t.DebitedFunds.toJson), ("Fees", t.Fees.toJson),
       ("DebitedWalletId", .str t.DebitedWalletId),
       ("CreditedWalletId", .str t.CreditedWalletId)]⟩],
              { tr with service := t.service }, rateLimitInfo, none⟩) := by
  unfold Transfer.Save
  simp only [Transfer.toJsonObject, transfer_sanitize_serialised]
  split
  · rfl
  · split <;> rfl

/-! ## Save: merging the answer of the dispatcher -/

/-- Hook.Save makes one dispatcher call and the rest is decided by the answer. -/
theorem hook_save_eq (disp : Call → Except GoError Hook) (h : Hook) :
    Hook.Save disp h =
      match disp ⟨h.service, h.saveAction, Hook.sanitize h.saveAction
          [("Id", .str h.Id), ("Tag", .str h.Tag),
            ("CreationDate", .float64 (float64OfInt h.CreationDate)),
            ("Url", .str h.Url), ("EventType", .str h.EventType),
            ("Status", .str h.Status), ("Validity", .str h.Validity)]⟩ with
      | .error err =>
        ⟨[⟨h.service, h.saveAction, Hook.sanitize h.saveAction
          [("Id", .str h.Id), ("Tag", .str h.Tag),
            ("CreationDate", .float64 (float64OfInt h.CreationDate)),
            ("Url", .str h.Url), ("EventType", .str h.EventType),
            ("Status", .str h.Status), ("Validity", .str h.Validity)]⟩], h, some err⟩
      | .ok hook =>
        ⟨[⟨h.service, h.saveAction, Hook.sanitize h.saveAction
          [("Id", .str h.Id), ("Tag", .str h.Tag),
            ("CreationDate", .float64 (float64OfInt h.CreationDate)),
            ("Url", .str h.Url), ("EventType", .str h.EventType),
            ("Status", .str h.Status), ("Validity", .str h.Validity)]⟩], { hook with service := h.service }, none⟩ := by
  unfold Hook.Save
  simp only [Hook.toJsonObject]

/-- C1: when the dispatcher call made by Save answers with an object r, the
receiver of Hook.Save, and likewise the receiver of Transfer.Save (which never
panics), ends up with the service handle it had before the call and with the
value of r in every other field. -/
theorem save_success_takes_reply_keeps_service
    (dh : Call → Except GoError Hook) (h rh : Hook)
    (dt : Call → Except GoError (Transfer × Option RateLimitInfo)) (t rt : Transfer)
    (info : Option RateLimitInfo) :
    ((Hook.Save dh h).calls.map dh = [.ok rh] →
      (Hook.Save dh h).recv.service = h.service ∧
      (Hook.Save dh h).recv = { rh with service := h.service }) ∧
    (∃ out : TransferSave, Transfer.Save dt t = some out ∧
      (out.calls.map dt = [.ok (rt, info)] →
        out.recv.service = t.service ∧
        out.recv = { rt with service := t.service })) := by
  constructor
  · rw [hook_save_eq]
    split
    · rename_i e he
      intro hr
      simp [he] at hr
    · rename_i hook he
      intro hr
      simp only [List.map_cons, List.map_nil, he, List.cons.injEq, and_true,
        Except.ok.injEq] at hr
      subst hr
      exact ⟨rfl, rfl⟩
  · refine ⟨_, transfer_save_eq dt t, ?_⟩
    split
    · rename_i e he
      intro hr
      simp [he] at hr
    · rename_i tr ri he
      split
      · intro hr
        simp only [List.map_cons, List.map_nil, he, List.cons.injEq, and_true,
          Except.ok.injEq, Prod.mk.injEq] at hr
        obtain ⟨h1, _⟩ := hr
        subst h1
        exact ⟨rfl, rfl⟩
      · intro hr
        simp only [List.map_cons, List.map_nil, he, List.cons.injEq, and_true,
          Except.ok.injEq, Prod.mk.injEq] at hr
        obtain ⟨h1, _⟩ := hr
        subst h1
        exact ⟨rfl, rfl⟩

theorem save_success_takes_reply_keeps_service_witness :
    (Hook.Save (replyHook repliedHook) newHook).calls.map (replyHook repliedHook) =
        [.ok repliedHook] ∧
    (Hook.Save (replyHook repliedHook) newHook).recv =
        { repliedHook with service := some sampleClient } ∧
    ∃ out : TransferSave, Transfer.Save (replyTransfer doneTransfer) newTransfer = some out ∧
      out.calls.map (replyTransfer doneTransfer) = [.ok (doneTransfer, none)] ∧
      out.recv = { doneTransfer with service := some sampleClient } := by
  have hw := save_success_takes_reply_keeps_service (replyHook repliedHook) newHook
    repliedHook (replyTransfer doneTransfer) newTransfer doneTransfer none
  have hh : (Hook.Save (replyHook repliedHook) newHook).calls.map (replyHook repliedHook) =
      [.ok repliedHook] := by
    rw [hook_save_calls]
    rfl
  obtain ⟨h1, out, hs, h2⟩ := hw
  have ht : out.calls.map (replyTransfer doneTransfer) = [.ok (doneTransfer, none)] := by
    rw [transfer_save_eq] at hs
    injection hs with hs
    subst hs
    rfl
  exact ⟨hh, (h1 hh).2, out, hs, ht, (h2 ht).2⟩

/-! ## Save: a failing dispatcher -/

/-- C6: when the dispatcher call made by Save returns an error e, Hook.Save, and
likewise Transfer.Save (which never panics), returns that very error and leaves
the receiver, its identifier, status and service handle included, as it was
before the call. -/
theorem save_dispatch_error_unchanged
    (dh : Call → Except GoError Hook) (h : Hook) (eh : GoError)
    (dt : Call → Except GoError (Transfer × Option RateLimitInfo)) (t : Transfer)
    (et : GoError) :
    ((Hook.Save dh h).calls.map dh = [.error eh] →
      (Hook.Save dh h).err = some eh ∧ (Hook.Save dh h).recv = h) ∧
    (∃ out : TransferSave, Transfer.Save dt t = some out ∧
      (out.calls.map dt = [.error et] →
        out.err = some et ∧ out.info = none ∧ out.recv = t)) := by
  constructor
  · rw [hook_save_eq]
    split
    · rename_i e he
      intro hr
      simp only [List.map_cons, List.map_nil, he, List.cons.injEq, and_true,
        Except.error.injEq] at hr
      subst hr
      exact ⟨rfl, rfl⟩
    · rename_i hook he
      intro hr
      simp [he] at hr
  · refine ⟨_, transfer_save_eq dt t, ?_⟩
    split
    · rename_i e he
      intro hr
      simp only [List.map_cons, List.map_nil, he, List.cons.injEq, and_true,
        Except.error.injEq] at hr
      subst hr
      exact ⟨rfl, rfl, rfl⟩
    · rename_i tr ri he
      split
      · intro hr
        simp [he] at hr
      · intro hr
        simp [he] at hr

theorem save_dispatch_error_unchanged_witness :
    (Hook.Save (failHook netDown) storedHook).calls.map (failHook netDown) =
        [.error netDown] ∧
    (Hook.Save (failHook netDown) storedHook).err = some netDown ∧
    (Hook.Save (failHook netDown) storedHook).recv = storedHook ∧
    ∃ out : TransferSave, Transfer.Save (failTransfer netDown) newTransfer = some out ∧
      out.calls.map (failTransfer netDown) = [.error netDown] ∧
      out.err = some netDown ∧ out.recv = newTransfer := by
  have hw := save_dispatch_error_unchanged (failHook netDown) storedHook netDown
    (failTransfer netDown) newTransfer netDown
  have hh : (Hook.Save (failHook netDown) storedHook).calls.map (failHook netDown) =
      [.error netDown] := by
    rw [hook_save_calls]
    rfl
  obtain ⟨h1, out, hs, h2⟩ := hw
  have ht : out.calls.map (failTransfer netDown) = [.error netDown] := by
    rw [transfer_save_eq] at hs
    injection hs with hs
    subst hs
    rfl
  exact ⟨hh, (h1 hh).1, (h1 hh).2, out, hs, ht, (h2 ht).1, (h2 ht).2.2⟩

/-! ## Transfer.Save: the rejected transfer -/

theorem errTransferFailed_contains_id (e : ErrTransferFailed) :
    Contains e.Error e.transferId :=
  ⟨"transfer ", " failed: " ++ e.msg ++ " ", by
    simp [ErrTransferFailed.Error, String.append_assoc]⟩

theorem errTransferFailed_contains_msg (e : ErrTransferFailed) :
    Contains e.Error e.msg :=
  ⟨"transfer " ++ e.transferId ++ " failed: ", " ", rfl⟩

/-- C2: Transfer.Save never panics, and when its dispatcher call answers with a
transfer r, the returned error is non-nil exactly when r.Status is "FAILED".
In that case the error is the ErrTransferFailed built from r.Id and
r.ResultMessage, its text contains both, no rate-limit value is returned, and
the receiver holds the fields of r (status "FAILED", identifier r.Id) under its
own service handle.  Otherwise the error is nil and the rate-limit value of the
dispatcher is returned. -/
theorem transfer_save_failed_status
    (disp : Call → Except GoError (Transfer × Option RateLimitInfo)) (t r : Transfer)
    (info : Option RateLimitInfo) :
    ∃ out : TransferSave, Transfer.Save disp t = some out ∧
      (out.calls.map disp = [.ok (r, info)] →
        (out.err ≠ none ↔ r.Status = "FAILED") ∧
        (r.Status = "FAILED" →
          out.err = some (.transferFailed ⟨r.Id, r.ResultMessage⟩) ∧
          Contains (GoError.Error (.transferFailed ⟨r.Id, r.ResultMessage⟩)) r.Id ∧
          Contains (GoError.Error (.transferFailed ⟨r.Id, r.ResultMessage⟩)) r.ResultMessage ∧
          out.info = none ∧
          out.recv = { r with service := t.service } ∧
          out.recv.Status = "FAILED" ∧ out.recv.Id = r.Id) ∧
        (r.Status ≠ "FAILED" →
          out.err = none ∧ out.info = info ∧
          out.recv = { r with service := t.service })) := by
  refine ⟨_, transfer_save_eq disp t, ?_⟩
  split
  · rename_i e he
    intro hr
    simp [he] at hr
  · rename_i tr ri he
    split
    · rename_i hf
      intro hr
      simp only [List.map_cons, List.map_nil, he, List.cons.injEq, and_true,
        Except.ok.injEq, Prod.mk.injEq] at hr
      obtain ⟨h1, h2⟩ := hr
      subst h1
      subst h2
      refine ⟨by simp [hf], fun _ => ⟨rfl, ?_, ?_, rfl, rfl, hf, rfl⟩, fun hn => absurd hf hn⟩
      · exact errTransferFailed_contains_id ⟨tr.Id, tr.ResultMessage⟩
      · exact errTransferFailed_contains_msg ⟨tr.Id, tr.ResultMessage⟩
    · rename_i hf
      intro hr
      simp only [List.map_cons, List.map_nil, he, List.cons.injEq, and_true,
        Except.ok.injEq, Prod.mk.injEq] at hr
      obtain ⟨h1, h2⟩ := hr
      subst h1
      subst h2
      exact ⟨by simp [hf], fun hn => absurd hn hf, fun _ => ⟨rfl, rfl, rfl⟩⟩

theorem transfer_save_failed_status_witness :
    ∃ out : TransferSave, Transfer.Save (replyTransfer failedTransfer) newTransfer = some out ∧
      out.calls.map (replyTransfer failedTransfer) = [.ok (failedTransfer, none)] ∧
      out.err = some (.transferFailed ⟨"T9", "insufficient funds"⟩) ∧
      GoError.Error (.transferFailed ⟨"T9", "insufficient funds"⟩) =
        "transfer T9 failed: insufficient funds " ∧
      out.recv.Status = "FAILED" ∧ out.recv.Id = "T9" ∧
      out.recv.service = some sampleClient := by
  obtain ⟨out, hs, h⟩ :=
    transfer_save_failed_status (replyTransfer failedTransfer) newTransfer failedTransfer none
  have ht : out.calls.map (replyTransfer failedTransfer) = [.ok (failedTransfer, none)] := by
    rw [transfer_save_eq] at hs
    injection hs with hs
    subst hs
    rfl
  obtain ⟨_, hf, _⟩ := h ht
  obtain ⟨he, _, _, _, hrecv, hst, hid⟩ := hf rfl
  refine ⟨out, hs, ht, he, by decide, hst, hid, ?_⟩
  rw [hrecv]
  rfl

/-! ## Transfer.Save: the field map -/

/-- C7: Transfer.Save never panics and always makes exactly one dispatcher
call, with the create-transfer action.  The field map of that call has none of
the keys Id, CreationDate, ExecutionDate, CreditedFunds, CreditedUserId,
ResultCode, ResultMessage, Status, and under every other key it holds exactly
what the serialised transfer holds there: nothing else is removed or changed
and nothing is added. -/
theorem transfer_save_field_map
    (disp : Call → Except GoError (Transfer × Option RateLimitInfo)) (t : Transfer) :
    ∃ (out : TransferSave) (m data : JsonObject),
      Transfer.Save disp t = some out ∧
      t.toJsonObject = .ok m ∧
      out.calls = [⟨t.service, .actionCreateTransfer, data⟩] ∧
      ∀ k : String, data.get k = if k ∈ transferForbidden then none else m.get k := by
  refine ⟨_, _,
    [("Tag", .str t.Tag), ("AuthorId", .str t.AuthorId),
     ("DebitedFunds", t.DebitedFunds.toJson), ("Fees", t.Fees.toJson),
     ("DebitedWalletId", .str t.DebitedWalletId),
     ("CreditedWalletId", .str t.CreditedWalletId)],
    transfer_save_eq disp t, rfl, ?_, ?_⟩
  · split
    · rfl
    · split <;> rfl
  · intro k
    by_cases hk : k ∈ transferForbidden
    · rw [if_pos hk]
      simp only [transferForbidden, List.mem_cons, List.mem_singleton, List.not_mem_nil,
        or_false] at hk
      rcases hk with h | h | h | h | h | h | h | h <;> subst h <;>
        simp [get_cons, get_nil]
    · rw [if_neg hk]
      simp only [transferForbidden, List.mem_cons, List.mem_singleton, List.not_mem_nil,
        or_false, not_or] at hk
      obtain ⟨h1, h2, h3, h4, h5, h6, h7, h8⟩ := hk
      simp only [get_cons, get_nil, if_neg h1, if_neg h2, if_neg h3, if_neg h4, if_neg h5,
        if_neg h6, if_neg h7, if_neg h8]

/-! ## NewTransfer -/

/-- C5: NewTransfer never calls the dispatcher.  It returns an error together
with a nil transfer exactly when the author is nil, or the source wallet is nil,
or the destination wallet is nil, or the source wallet has an empty Id, or the
destination wallet has an empty Id, or the consumer id of the author is empty;
in every other case it returns a nil error together with a transfer, which
carries the client as its service handle.  A nil author always gives an error. -/
theorem newTransfer_validation {Consumer : Type} (consumerId : Consumer → String)
    (m : MangoPay) (author : Option Consumer) (amount fees : Money)
    (from_ to_ : Option Wallet) :
    (MangoPay.NewTransfer consumerId m author amount fees from_ to_).calls = [] ∧
    (((MangoPay.NewTransfer consumerId m author amount fees from_ to_).err ≠ none ∧
      (MangoPay.NewTransfer consumerId m author amount fees from_ to_).transfer = none) ↔
      (author = none ∨ from_ = none ∨ to_ = none ∨
        (∃ w, from_ = some w ∧ w.Id = "") ∨ (∃ w, to_ = some w ∧ w.Id = "") ∨
        (∃ a, author = some a ∧ consumerId a = ""))) ∧
    (¬ (author = none ∨ from_ = none ∨ to_ = none ∨
        (∃ w, from_ = some w ∧ w.Id = "") ∨ (∃ w, to_ = some w ∧ w.Id = "") ∨
        (∃ a, author = some a ∧ consumerId a = "")) →
      (MangoPay.NewTransfer consumerId m author amount fees from_ to_).err = none ∧
      ∃ t : Transfer,
        (MangoPay.NewTransfer consumerId m author amount fees from_ to_).transfer = some t ∧
        t.service = some m) ∧
    (author = none →
      (MangoPay.NewTransfer consumerId m author amount fees from_ to_).err ≠ none) := by
  cases author with
  | none => simp [MangoPay.NewTransfer]
  | some a =>
    cases from_ with
    | none => simp [MangoPay.NewTransfer]
    | some f =>
      cases to_ with
      | none => simp [MangoPay.NewTransfer]
      | some w =>
        by_cases hf : f.Id = ""
        · simp [MangoPay.NewTransfer, hf]
        · by_cases hw : w.Id = ""
          · simp [MangoPay.NewTransfer, hf, hw]
          · by_cases ha : consumerId a = ""
            · simp [MangoPay.NewTransfer, hf, hw, ha]
            · simp [MangoPay.NewTransfer, hf, hw, ha]

theorem newTransfer_validation_witness :
    (MangoPay.NewTransfer (fun s : String => s) sampleClient none ⟨"EUR", 100⟩ ⟨"EUR", 0⟩
        (some ⟨"w1"⟩) (some ⟨"w2"⟩)).calls = [] ∧
    (MangoPay.NewTransfer (fun s : String => s) sampleClient none ⟨"EUR", 100⟩ ⟨"EUR", 0⟩
        (some ⟨"w1"⟩) (some ⟨"w2"⟩)).err ≠ none ∧
    (MangoPay.NewTransfer (fun s : String => s) sampleClient (some "u1") ⟨"EUR", 100⟩
        ⟨"EUR", 0⟩ (some ⟨"w1"⟩) (some ⟨"w2"⟩)).err = none :=
  ⟨(newTransfer_validation (fun s : String => s) sampleClient none ⟨"EUR", 100⟩ ⟨"EUR", 0⟩
      (some ⟨"w1"⟩) (some ⟨"w2"⟩)).1,
   (newTransfer_validation (fun s : String => s) sampleClient none ⟨"EUR", 100⟩ ⟨"EUR", 0⟩
      (some ⟨"w1"⟩) (some ⟨"w2"⟩)).2.2.2 rfl,
   ((newTransfer_validation (fun s : String => s) sampleClient (some "u1") ⟨"EUR", 100⟩
      ⟨"EUR", 0⟩ (some ⟨"w1"⟩) (some ⟨"w2"⟩)).2.2.1 (by decide)).1⟩

/-! ## Fetching by identifier -/

/-- C10, evaluated on the code: when the dispatcher call of a fetch answers with
an object, MangoPay.Hook returns that hook with the client m set as its service
handle, whereas MangoPay.Transfer returns the transfer exactly as the dispatcher
built it, service handle included: it never assigns the handle. -/
theorem fetch_sets_handle_on_hook_only
    (dh : Call → Except GoError Hook) (rh : Hook)
    (dt : Call → Except GoError (Transfer × Option RateLimitInfo)) (rt : Transfer)
    (info : Option RateLimitInfo) (m : MangoPay) (id : String) :
    ((MangoPay.Hook dh m id).calls.map dh = [.ok rh] →
      (MangoPay.Hook dh m id).hook = some { rh with service := some m }) ∧
    ((MangoPay.Transfer dt m id).calls.map dt = [.ok (rt, info)] →
      (MangoPay.Transfer dt m id).transfer = some rt) := by
  constructor
  · unfold MangoPay.Hook
    dsimp only
    split
    · rename_i e he
      intro hr
      simp [he] at hr
    · rename_i hook he
      intro hr
      simp only [List.map_cons, List.map_nil, he, List.cons.injEq, and_true,
        Except.ok.injEq] at hr
      subst hr
      rfl
  · unfold MangoPay.Transfer
    dsimp only
    split
    · rename_i e he
      intro hr
      simp [he] at hr
    · rename_i w ri he
      intro hr
      simp only [List.map_cons, List.map_nil, he, List.cons.injEq, and_true,
        Except.ok.injEq, Prod.mk.injEq] at hr
      rw [hr.1]

theorem fetch_sets_handle_on_hook_only_witness :
    (MangoPay.Hook (replyHook repliedHook) sampleClient "123").hook =
        some { repliedHook with service := some sampleClient } ∧
    (MangoPay.Transfer (replyTransfer doneTransfer) sampleClient "T9").transfer =
        some doneTransfer ∧
    doneTransfer.service = none ∧ doneTransfer.service ≠ some sampleClient :=
  ⟨(fetch_sets_handle_on_hook_only (replyHook repliedHook) repliedHook
      (replyTransfer doneTransfer) doneTransfer none sampleClient "123").1 rfl,
   (fetch_sets_handle_on_hook_only (replyHook repliedHook) repliedHook
      (replyTransfer doneTransfer) doneTransfer none sampleClient "T9").2 rfl,
   rfl, by decide⟩

/-! ## Applying the preparation of the field map twice -/

theorem pruneEmpty_keys_subset (data : JsonObject) (k : String)
    (h : k ∈ (pruneEmpty data).keys) : k ∈ data.keys := by
  unfold pruneEmpty at h
  rw [foldl_rangeStep] at h
  unfold JsonObject.keys at *
  obtain ⟨kv, hkv, rfl⟩ := List.mem_map.1 h
  exact List.mem_map_of_mem Prod.fst (List.mem_filter.1 hkv).1

theorem pruneEmpty_idem (data : JsonObject) :
    pruneEmpty (pruneEmpty data) = pruneEmpty data := by
  have hfix : ∀ y : JsonObject, (∀ q ∈ y, isEmptyValue q.2 = false) → pruneEmpty y = y := by
    intro y hy
    unfold pruneEmpty
    rw [foldl_rangeStep, List.filter_eq_self]
    intro q _
    have : (y.any fun p => isEmptyValue p.2 && p.1 == q.1) = false := by
      rw [Bool.eq_false_iff]
      intro hany
      rw [List.any_eq_true] at hany
      obtain ⟨p, hp, hpq⟩ := hany
      simp only [Bool.and_eq_true] at hpq
      rw [hy p hp] at hpq
      exact Bool.noConfusion hpq.1
    simp [this]
  apply hfix
  intro q hq
  unfold pruneEmpty at hq
  rw [foldl_rangeStep] at hq
  obtain ⟨hmem, hp⟩ := List.mem_filter.1 hq
  by_contra hne
  have hv : isEmptyValue q.2 = true := by simpa using hne
  have : (data.any (fun p => isEmptyValue p.2 && p.1 == q.1)) = true := by
    rw [List.any_eq_true]
    exact ⟨q, hmem, by simp [hv]⟩
  simp [this] at hp

theorem delete_delete_self (data : JsonObject) (k : String) :
    (data.delete k).delete k = data.delete k :=
  delete_eq_self _ _ (not_mem_keys_delete data k)

theorem delete_comm (data : JsonObject) (k k1 : String) :
    (data.delete k).delete k1 = (data.delete k1).delete k := by
  unfold JsonObject.delete
  rw [List.filter_filter, List.filter_filter]
  apply List.filter_congr
  intro q _
  exact Bool.and_comm _ _

/-- The pruning of Hook.Save gives the same map when applied to its own output
under the same action, on every field map. -/
theorem hook_sanitize_idem (action : mangoAction) (data : JsonObject) :
    Hook.sanitize action (Hook.sanitize action data) = Hook.sanitize action data := by
  have hdel : ∀ x : JsonObject,
      ((((x.delete "Status").delete "Validity").delete "Status").delete "Validity") =
        (x.delete "Status").delete "Validity" := by
    intro x
    rw [delete_comm (x.delete "Status") "Validity" "Status", delete_delete_self,
      delete_delete_self]
  by_cases hu : action = .actionUpdateHook
  · subst hu
    simp only [Hook.sanitize, reduceCtorEq, if_false, if_true]
    have h1 : "Status" ∉ (pruneEmpty ((data.delete "Status").delete "Validity")).keys := by
      intro h
      have h2 := keys_delete_subset _ _ _ (pruneEmpty_keys_subset _ _ h)
      exact not_mem_keys_delete _ _ h2
    have h2 : "Validity" ∉ (pruneEmpty ((data.delete "Status").delete "Validity")).keys := by
      intro h
      exact not_mem_keys_delete _ _ (pruneEmpty_keys_subset _ _ h)
    rw [delete_eq_self _ _ h1, delete_eq_self _ _ h2, pruneEmpty_idem]
  · by_cases hw : action = .actionCreateWallet
    · subst hw
      simp only [Hook.sanitize, reduceCtorEq, if_false, if_true]
      rw [delete_comm ((data.delete "Id").delete "Status") "Validity" "Id",
        delete_comm (data.delete "Id") "Status" "Id", delete_delete_self, hdel]
    · simp only [Hook.sanitize, hu, hw, if_false]
      exact hdel data

/-- The deletion loop of Transfer.Save gives the same map when applied to its
own output, on every field map. -/
theorem deleteForbidden_idem (data : JsonObject) :
    deleteForbidden (deleteForbidden data) = deleteForbidden data := by
  simp only [deleteForbidden, transferForbidden, List.foldl_cons, List.foldl_nil,
    JsonObject.delete, List.filter_filter]
  apply List.filter_congr
  intro q _
  cases (q.1 != "Id") <;> cases (q.1 != "CreationDate") <;> cases (q.1 != "ExecutionDate") <;>
    cases (q.1 != "CreditedFunds") <;> cases (q.1 != "CreditedUserId") <;>
    cases (q.1 != "ResultCode") <;> cases (q.1 != "ResultMessage") <;>
    cases (q.1 != "Status") <;> rfl

/-- C9 as stated fails on Transfer.Save: on the field map of a serialised
transfer the preparation of lines 132-140 succeeds once, and applied to its own
output it panics, because the key CreationDate that the coercion asserts to be
a float64 has been deleted. -/
theorem transfer_sanitize_twice_panics :
    ∃ m d : JsonObject, newTransfer.toJsonObject = .ok m ∧
      Transfer.sanitize m = some d ∧ Transfer.sanitize d = none ∧
      Transfer.sanitize d ≠ some d := by
  refine ⟨_, _, rfl, transfer_sanitize_serialised newTransfer, ?_, ?_⟩
  · simp [Transfer.sanitize, coerceDates, coerceField, get_cons, get_nil]
  · simp [Transfer.sanitize, coerceDates, coerceField, get_cons, get_nil]

/-- C9 as amended: the pruning inside Hook.Save is idempotent under every
action, on every field map; the deletion loop of Transfer.Save is idempotent on
every field map; and the whole preparation of Transfer.Save (coercion, then
deletion) succeeds on the field map of every serialised transfer but panics
when it is applied to its own output, which the deletion loop leaves
unchanged. -/
theorem sanitize_idempotence :
    (∀ (action : mangoAction) (data : JsonObject),
      Hook.sanitize action (Hook.sanitize action data) = Hook.sanitize action data) ∧
    (∀ data : JsonObject, deleteForbidden (deleteForbidden data) = deleteForbidden data) ∧
    (∀ t : Transfer, ∃ m d : JsonObject, t.toJsonObject = .ok m ∧
      Transfer.sanitize m = some d ∧ Transfer.sanitize d = none ∧
      deleteForbidden d = d) := by
  refine ⟨hook_sanitize_idem, deleteForbidden_idem, ?_⟩
  intro t
  refine ⟨_, _, rfl, transfer_sanitize_serialised t, ?_, ?_⟩
  · simp [Transfer.sanitize, coerceDates, coerceField, get_cons, get_nil]
  · simp [deleteForbidden, transferForbidden, delete_cons, delete_nil]

end Mango
